import Mathlib

/-!
Verification of the schedulesurf frontend: a shallow embedding of the
slot-selection form (`ScheduleMeeting.js`), the MCP payload normalization
utilities (`mcpUtils.js`) and the call-status synchronizer hook
(`useCallStatus` / `CallStatus.js`), together with proofs of the spec's
claims about them.
-/

namespace ScheduleSurf

/-! ## Data model: time slots and selected slots (`ScheduleMeeting.js`) -/

/-- A raw time slot as returned by the calendar service: `{start, end}`. -/
structure TimeSlot where
  start : String
  end_ : String
deriving DecidableEq, Repr

/-- A selected slot: raw slot plus derived display label and synthetic id,
as built by `formatSlot` in `ScheduleMeeting.js`. -/
structure SelectedSlot where
  id : String
  label : String
  start : String
  end_ : String
deriving DecidableEq, Repr

/-- `formatSlot` from `ScheduleMeeting.js` (lines 60-70): the label is produced
by moment-based date formatting, embedded here as an explicit formatting
function argument `fmtLabel start end`; the synthetic id is
`` `${slot.start}-${slot.end}` ``. -/
def formatSlot (fmtLabel : String → String → String) (slot : TimeSlot) : SelectedSlot :=
  { id := slot.start ++ "-" ++ slot.end_
  , label := fmtLabel slot.start slot.end_
  , start := slot.start
  , end_ := slot.end_ }

/-- `handleSlotSelect` from `ScheduleMeeting.js` (lines 73-81): if a slot with
the same id is already selected, remove it (filter by id); otherwise, if fewer
than 5 slots are selected, append it; otherwise do nothing. -/
def handleSlotSelect (selectedSlots : List SelectedSlot) (formatted : SelectedSlot) :
    List SelectedSlot :=
  if selectedSlots.any (fun s => s.id = formatted.id) then
    selectedSlots.filter (fun s => s.id ≠ formatted.id)
  else if selectedSlots.length < 5 then
    selectedSlots ++ [formatted]
  else
    selectedSlots

/-! ## Form validation (`ScheduleMeeting.js`) -/

/-- The regex `/^\+?[1-9]\d{1,14}$/` body after the optional `+`:
a first digit in `1-9` followed by 1 to 14 further digits. -/
def phoneCore (cs : List Char) : Bool :=
  match cs with
  | [] => false
  | c :: rest =>
      ('1' ≤ c && c ≤ '9') && rest.all (fun d => '0' ≤ d && d ≤ '9')
        && decide (1 ≤ rest.length) && decide (rest.length ≤ 14)

/-- `validatePhoneNumber` from `ScheduleMeeting.js` (lines 53-57): tests the
input against `/^\+?[1-9]\d{1,14}$/`. -/
def validatePhoneNumber (number : String) : Bool :=
  match number.toList with
  | '+' :: rest => phoneCore rest
  | cs => phoneCore cs

/-- The form fields consulted by `validateForm`. -/
structure FormState where
  phoneNumber : String
  inviteeName : String
  selectedSlots : List SelectedSlot
deriving Repr

/-- The error map built by `validateForm`; a `none` field means no key was
added for that field. -/
structure FormErrors where
  phoneNumber : Option String
  inviteeName : Option String
  slots : Option String
deriving DecidableEq, Repr

/-- `validateForm` from `ScheduleMeeting.js` (lines 84-103). JavaScript
`!phoneNumber` / `!inviteeName` are true exactly when the string is empty. -/
def validateForm (f : FormState) : FormErrors :=
  { phoneNumber :=
      if f.phoneNumber = "" then some "Phone number is required"
      else if !validatePhoneNumber f.phoneNumber then
        some "Enter a valid phone number (e.g., +11234567890)"
      else none
  , inviteeName :=
      if f.inviteeName = "" then some "Invitee name is required" else none
  , slots :=
      if f.selectedSlots.length = 0 then
        some "Select at least one available time slot"
      else none }

/-- `validateForm` returns `true` (submission proceeds) exactly when the error
map has no keys (`Object.keys(newErrors).length === 0`). -/
def formIsValid (f : FormState) : Bool :=
  (validateForm f).phoneNumber.isNone && (validateForm f).inviteeName.isNone
    && (validateForm f).slots.isNone

/-- The international phone format as the spec words it: an optional leading
`+`, then a first digit 1-9 followed by 1 to 14 further digits, i.e. 2 to 15
digits in total, and nothing else. Stated independently of the code's regex
for the refinement in claim C4. -/
def specPhoneFormat (number : String) : Prop :=
  ∃ first rest,
    (number.toList = '+' :: first :: rest ∨ number.toList = first :: rest) ∧
    '1' ≤ first ∧ first ≤ '9' ∧
    (∀ d ∈ rest, '0' ≤ d ∧ d ≤ '9') ∧
    1 ≤ rest.length ∧ rest.length ≤ 14

/-! ## MCP payload normalization (`mcpUtils.js`) -/

/-- One entry of a structured transcript array as it may arrive from the
provider; each field may be absent. A present-but-empty string is JavaScript
falsy, which `entry.role || entry.speaker || 'unknown'` distinguishes, so
presence is kept explicit. -/
structure RawEntry where
  role : Option String
  speaker : Option String
  text : Option String
  content : Option String
deriving DecidableEq, Repr

/-- The transcript value handed to `formatTranscript`: either a JavaScript
string or an array of entries. -/
inductive TranscriptInput where
  | str (s : String)
  | arr (entries : List RawEntry)
deriving DecidableEq, Repr

/-- A normalized transcript record `{role, text}`. -/
structure TranscriptRecord where
  role : String
  text : String
deriving DecidableEq, Repr

/-- JavaScript `a || b` on an optional string: an absent or empty string is
falsy and falls through to `b`. -/
def jsOrStr (a : Option String) (b : String) : String :=
  match a with
  | some s => if s = "" then b else s
  | none => b

/-- JavaScript `String.prototype.toLowerCase` on the character sequence
(the transcripts in scope are ASCII, where per-character lowering
coincides with it). -/
def toLowerL (l : List Char) : List Char := l.map Char.toLower

/-- `sep.split('\n')` for the single-character separator used by
`formatTranscript`: the JavaScript split on `'\n'`. -/
def splitOnNl : List Char → List (List Char)
  | [] => [[]]
  | c :: t =>
      if c = '\n' then [] :: splitOnNl t
      else
        match splitOnNl t with
        | h :: rest => (c :: h) :: rest
        | [] => [[c]]

/-- Substring test, modelling JavaScript `String.prototype.includes`. -/
def containsL (l sub : List Char) : Bool :=
  match l with
  | [] => decide (sub = [])
  | c :: t => sub.isPrefixOf (c :: t) || containsL t sub

/-- Case-insensitive prefix test, modelling anchored matching of an ASCII
alternative `p` under the regex `i` flag. -/
def isPrefixOfCI (p l : List Char) : Bool :=
  (toLowerL p).isPrefixOf (toLowerL l)

/-- The whitespace class removed by `String.prototype.trim` (restricted to
the ASCII whitespace occurring in the payloads in scope). -/
def isJsWhitespace (c : Char) : Bool :=
  c = ' ' || c = '\t' || c = '\n' || c = '\r' || c = '\x0b' || c = '\x0c'

/-- JavaScript `String.prototype.trim`. -/
def trimL (l : List Char) : List Char :=
  ((l.dropWhile isJsWhitespace).reverse.dropWhile isJsWhitespace).reverse

/-- `line.replace(/^(Agent:|User:|AI:)/i, '')`: the alternation tries
`Agent:`, then `User:`, then `AI:` at the start of the line and removes the
first match, if any. -/
def stripRolePrefixL (line : List Char) : List Char :=
  if isPrefixOfCI "Agent:".toList line then line.drop 6
  else if isPrefixOfCI "User:".toList line then line.drop 5
  else if isPrefixOfCI "AI:".toList line then line.drop 3
  else line

/-- The newline branch of `formatTranscript` (`mcpUtils.js` lines 56-62):
split on newlines; a line whose lowercasing contains `agent:` or `ai:` gets
role `agent`, every other line role `user`; the text is the line with a
leading role prefix removed, trimmed. -/
def formatTranscriptLine (line : List Char) : TranscriptRecord :=
  let isAgent := containsL (toLowerL line) "agent:".toList
    || containsL (toLowerL line) "ai:".toList
  { role := if isAgent then "agent" else "user"
  , text := String.mk (trimL (stripRolePrefixL line)) }

/-- The array branch of `formatTranscript` (`mcpUtils.js` lines 67-72):
`role: entry.role || entry.speaker || 'unknown'`,
`text: entry.text || entry.content || ''`. -/
def formatTranscriptEntry (entry : RawEntry) : TranscriptRecord :=
  { role := jsOrStr entry.role (jsOrStr entry.speaker "unknown")
  , text := jsOrStr entry.text (jsOrStr entry.content "") }

/-- `formatTranscript` from `mcpUtils.js` (lines 46-79). `JSON.parse` is the
host's JSON parser, embedded as the explicit argument `jsonParse`
(`none` models a parse exception). The opening guard
`if (!transcript || typeof transcript !== 'string') return []` sends the
empty string and every non-string — arrays included — straight to `[]`;
only after it does the code parse, so the `Array.isArray` branch is reached
only by values produced by a successful `JSON.parse` of a string. -/
def formatTranscript (jsonParse : String → Option TranscriptInput) :
    TranscriptInput → List TranscriptRecord
  | .arr _ => []
  | .str s =>
      if s = "" then []
      else
        match jsonParse s with
        | none => (splitOnNl s.toList).map formatTranscriptLine
        | some (.arr entries) => entries.map formatTranscriptEntry
        | some (.str _) => []

/-- Raw MCP call data, with the fields `formatMcpCallData` and
`generateEventsFromMcp` read; every field may be absent. -/
structure McpData where
  call_id : Option String
  status : Option String
  duration : Option Nat
  credits : Option Nat
  transcript : Option TranscriptInput
deriving Repr

/-- JavaScript truthiness of the `transcript` field as tested by
`mcpData.transcript ? ... : []`: absent values and the empty string are
falsy; any other string and any array (even empty) is truthy. -/
def transcriptTruthy : Option TranscriptInput → Bool
  | none => false
  | some (.str s) => !(s = "")
  | some (.arr _) => true

/-- The `transcript` field of the record returned by `formatMcpCallData`
(`mcpUtils.js` lines 31-43):
`mcpData.transcript ? formatTranscript(mcpData.transcript) : []`. -/
def formatMcpTranscript (jsonParse : String → Option TranscriptInput)
    (mcpData : McpData) : List TranscriptRecord :=
  if transcriptTruthy mcpData.transcript then
    match mcpData.transcript with
    | some t => formatTranscript jsonParse t
    | none => []
  else []

/-! ## Call-status synchronizer (`useCallStatus`, `src/unnamed/part_000`; the
poll loop is shared verbatim by the effect in `CallStatus.js`) -/

/-- A call snapshot or partial update, as a JavaScript object: a map from
field names to optionally-present values. -/
def Obj := String → Option String

/-- The object with no fields. -/
def emptyObj : Obj := fun _ => none

/-- `data.status === 'completed' || data.status === 'error'`. -/
def isTerminal (data : Obj) : Bool :=
  data "status" = some "completed" || data "status" = some "error"

/-- JavaScript object spread `{...prev, ...upd}` restricted to reading:
fields present in `upd` win, fields absent from `upd` keep their `prev`
value. -/
def spread (prev upd : Obj) : Obj :=
  fun k =>
    match upd k with
    | some v => some v
    | none => prev k

/-- The hook state touched by the synchronizer's setters. -/
structure SyncState where
  callData : Obj
  loading : Bool
  error : Option String
  usingMcp : Bool
  intervalActive : Bool
  listenerRegistered : Bool

/-- The settled outcome of one `apiService.getCallStatus` request: a
successful response carrying a snapshot, or a transport failure. -/
inductive FetchResult where
  | ok (data : Obj)
  | fail

/-- `fetchCallStatus` (part_000 lines 24-43) with the response `r` applied:
`setLoading(true)`; on success `setCallData(data)` (wholesale replacement),
`setError(null)`, and `clearInterval(intervalId)` when the status is
`completed` or `error`; on failure `setError('Unable to fetch call status')`;
finally `setLoading(false)`. The single-threaded event loop lets the issue of
the request and the arrival of its response be collapsed into one atomic
step; the latent out-of-order-response gap noted in the spec is outside the
claims treated here. -/
def processFetch (st : SyncState) (r : FetchResult) : SyncState :=
  match r with
  | .ok data =>
      { st with
        callData := data
        error := none
        loading := false
        intervalActive := if isTerminal data then false else st.intervalActive }
  | .fail =>
      { st with error := some "Unable to fetch call status", loading := false }

/-- One firing of the `setInterval(fetchCallStatus, 3000)` callback: the
callback runs only while the interval has not been cleared. -/
def pollTick (st : SyncState) (r : FetchResult) : SyncState :=
  if st.intervalActive then processFetch st r else st

/-- The outcome of one push update: either `get_call_details` followed by
`formatMcpCallData` produced a partial update object, or that threw and the
fallback `fetchCallStatus()` ran with result `r`. -/
inductive McpOutcome where
  | details (upd : Obj)
  | fallback (r : FetchResult)

/-- A raw MCP event delivered to the registered listener. -/
structure McpEvent where
  call_id : String
  outcome : McpOutcome

/-- `handleMcpUpdate` (part_000 lines 47-66): events for another call id are
ignored; otherwise the formatted details are merged into the previous
snapshot by object spread (`setCallData(prev => ({...prev, ...formatted}))`)
and the error flag cleared, and if fetching the details failed the handler
falls back to a plain `fetchCallStatus()`. -/
def handleMcpUpdate (callId : String) (st : SyncState) (ev : McpEvent) : SyncState :=
  if ev.call_id = callId then
    match ev.outcome with
    | .details upd => { st with callData := spread st.callData upd, error := none }
    | .fallback r => processFetch st r
  else st

/-- Delivery of one MCP event: the listener callback runs only while the
registration made in the effect body is still in place (it is removed only
by the unmount cleanup). -/
def pushEventStep (callId : String) (st : SyncState) (ev : McpEvent) : SyncState :=
  if st.listenerRegistered then handleMcpUpdate callId st ev else st

/-- The capabilities of `window.blandmcp` consulted by the hook. -/
structure McpEnv where
  available : Bool
  hasRegisterListener : Bool

/-- `checkMcpAvailability` from `mcpUtils.js` (lines 6-8):
`window.blandmcp !== undefined`. -/
def checkMcpAvailability (env : McpEnv) : Bool := env.available

/-- The polling period passed to `setInterval` (part_000 line 92,
`CallStatus.js` line 87), in milliseconds. -/
def pollIntervalMs : Nat := 3000

/-- The `useEffect` body of `useCallStatus` for a non-null `callId`
(part_000 lines 16-99). `firstPoll` is the settled result of the
`fetchCallStatus()` issued by the two non-push branches; `firstPush` is the
outcome of the initial `handleMcpUpdate({ call_id: callId })` of the push
branch. In the polling branch the interval is registered synchronously
before the first response arrives, so a terminal first response clears it;
in the available-but-no-listener branch no interval is ever registered, and
the terminal check's `clearInterval(undefined)` is a no-op. -/
def setupEffect (env : McpEnv) (callId : String) (initialData : Obj)
    (firstPoll : FetchResult) (firstPush : McpOutcome) : SyncState :=
  let st0 : SyncState :=
    { callData := initialData
      loading := false
      error := none
      usingMcp := checkMcpAvailability env
      intervalActive := false
      listenerRegistered := false }
  if checkMcpAvailability env then
    if env.hasRegisterListener then
      pushEventStep callId { st0 with listenerRegistered := true } ⟨callId, firstPush⟩
    else
      processFetch { st0 with usingMcp := false } firstPoll
  else
    processFetch { st0 with intervalActive := true } firstPoll

/-- The component state observable around a slot click: `handleSlotSelect`
calls only `setSelectedSlots`; the `errors` map set by `validateForm` is not
written by it. -/
structure ScheduleFormUI where
  form : FormState
  errors : FormErrors

/-- A slot click at component level: only `selectedSlots` changes. -/
def handleSlotSelectUI (ui : ScheduleFormUI) (f : SelectedSlot) : ScheduleFormUI :=
  { ui with
    form := { ui.form with selectedSlots := handleSlotSelect ui.form.selectedSlots f } }

/-! ## Concrete instances used by witnesses and counterexamples -/

def slotA : SelectedSlot := ⟨"1-2", "A", "1", "2"⟩

def slotB : SelectedSlot := ⟨"3-4", "B", "3", "4"⟩

def slotC : SelectedSlot := ⟨"5-6", "C", "5", "6"⟩

def slotD : SelectedSlot := ⟨"7-8", "D", "7", "8"⟩

def slotE : SelectedSlot := ⟨"9-10", "E", "9", "10"⟩

def slotF : SelectedSlot := ⟨"11-12", "F", "11", "12"⟩

def fiveSlots : List SelectedSlot := [slotA, slotB, slotC, slotD, slotE]

/-- A snapshot whose only field is `status: "completed"`. -/
def completedObj : Obj := fun k => if k = "status" then some "completed" else none

/-- A snapshot whose only field is `status: "in_progress"`. -/
def inProgressObj : Obj := fun k => if k = "status" then some "in_progress" else none

/-- A snapshot whose only field is `status: "queued"`. -/
def queuedObj : Obj := fun k => if k = "status" then some "queued" else none

/-- A snapshot with a non-terminal status and an extra field that only push
updates populate. -/
def prevObj : Obj :=
  fun k =>
    if k = "status" then some "queued"
    else if k = "extracted_info" then some "info" else none

/-- A poll-mode state mid-acquisition: interval running, snapshot `prevObj`. -/
def pollState0 : SyncState := ⟨prevObj, false, none, false, true, false⟩

/-- A push-mode state whose snapshot already reached `completed`, listener
still registered (the effect never unregisters it before unmount). -/
def terminalPushState : SyncState := ⟨completedObj, false, none, true, false, true⟩

/-- MCP reported available but `registerCallListener` is missing. -/
def envAvailNoListener : McpEnv := ⟨true, false⟩

/-- No MCP at all. -/
def envNoMcp : McpEnv := ⟨false, false⟩

/-! ## Slot-selection proofs (C5, C6, C10) -/

/-- One slot click never grows a selection of at most 5 past 5. -/
theorem handleSlotSelect_length_le (s : List SelectedSlot) (f : SelectedSlot)
    (h : s.length ≤ 5) : (handleSlotSelect s f).length ≤ 5 := by
  unfold handleSlotSelect
  split
  · exact le_trans (List.length_filter_le _ _) h
  · split
    · simp only [List.length_append, List.length_cons, List.length_nil]
      omega
    · exact h

/-- The 5-bound is preserved by any sequence of slot clicks. -/
theorem foldl_handleSlotSelect_length_le (ops : List SelectedSlot) :
    ∀ s : List SelectedSlot, s.length ≤ 5 → (ops.foldl handleSlotSelect s).length ≤ 5 := by
  induction ops with
  | nil => intro s h; simpa using h
  | cons f rest ih => intro s h; exact ih _ (handleSlotSelect_length_le s f h)

/-- C5: under any sequence of slot-selection operations starting from the
empty selection, the selected-slot list never exceeds 5 members; with exactly
5 slots selected, selecting a slot whose id is not among them leaves the list
unchanged; and a slot click never writes the validation error map. -/
theorem selection_never_exceeds_five :
    (∀ ops : List SelectedSlot, (ops.foldl handleSlotSelect []).length ≤ 5)
    ∧ (∀ (s : List SelectedSlot) (f : SelectedSlot),
        s.length = 5 → s.all (fun e => e.id ≠ f.id) = true → handleSlotSelect s f = s)
    ∧ (∀ (ui : ScheduleFormUI) (f : SelectedSlot),
        (handleSlotSelectUI ui f).errors = ui.errors) := by
  refine ⟨fun ops => foldl_handleSlotSelect_length_le ops [] (by simp), ?_, fun ui f => rfl⟩
  intro s f hlen hall
  have hany : s.any (fun e => e.id = f.id) = false := by
    simp only [List.all_eq_true, decide_eq_true_eq] at hall
    simp only [List.any_eq_false, decide_eq_true_eq]
    exact hall
  simp [handleSlotSelect, hany, hlen]

/-- Witness for C5: at the concrete 5-slot state `fiveSlots`, selecting the
absent `slotF` changes nothing. -/
theorem selection_never_exceeds_five_witness :
    handleSlotSelect fiveSlots slotF = fiveSlots :=
  selection_never_exceeds_five.2.1 fiveSlots slotF (by decide) (by decide)

/-- C6 fails as stated: the selection is an ordered list (its order is what
`handleSubmit` sends as `availabilities`), and toggling a selected slot that
is not last removes it and re-appends it at the end, so toggling twice does
not restore the original state. -/
theorem toggle_twice_reorders_cex :
    handleSlotSelect (handleSlotSelect [slotA, slotB] slotA) slotA ≠ [slotA, slotB] := by
  decide

/-- C6 amended: for every selection state of at most 5 slots in which any
held entry sharing the toggled slot's id is that slot itself (true of every
state the UI can build), toggling the same slot twice restores the selection
as a set — membership is unchanged — and restores the list exactly whenever
the slot was not selected; when it was selected, the slot is re-appended at
the end, so only the order can differ. -/
theorem toggle_twice_restores_selection_set :
    ∀ (s : List SelectedSlot) (f : SelectedSlot),
      s.length ≤ 5 → (∀ e ∈ s, e.id = f.id → e = f) →
      (∀ x, x ∈ handleSlotSelect (handleSlotSelect s f) f ↔ x ∈ s)
      ∧ (s.all (fun e => e.id ≠ f.id) = true →
          handleSlotSelect (handleSlotSelect s f) f = s) := by
  intro s f hlen hid
  by_cases hp : s.any (fun e => e.id = f.id) = true
  · obtain ⟨e, he, hei⟩ := List.any_eq_true.mp hp
    rw [decide_eq_true_eq] at hei
    have hf : f ∈ s := hid e he hei ▸ he
    have h1 : handleSlotSelect s f = s.filter (fun y => y.id ≠ f.id) := by
      unfold handleSlotSelect
      rw [if_pos hp]
    have hany2 : ¬ ((s.filter (fun y => y.id ≠ f.id)).any (fun y => y.id = f.id) = true) := by
      simp only [List.any_eq_true, decide_eq_true_eq]
      rintro ⟨x, hx, hxe⟩
      have := List.of_mem_filter hx
      rw [decide_eq_true_eq] at this
      exact this hxe
    have hlt : (s.filter (fun y => y.id ≠ f.id)).length < 5 := by
      have hlt' : (s.filter (fun y => y.id ≠ f.id)).length < s.length := by
        rw [List.length_filter_lt_length_iff_exists]
        exact ⟨e, he, by simp [hei]⟩
      omega
    have hres : handleSlotSelect (handleSlotSelect s f) f
        = s.filter (fun y => y.id ≠ f.id) ++ [f] := by
      rw [h1]
      unfold handleSlotSelect
      rw [if_neg hany2, if_pos hlt]
    refine ⟨?_, ?_⟩
    · intro x
      rw [hres]
      simp only [List.mem_append, List.mem_filter, List.mem_singleton, decide_eq_true_eq]
      constructor
      · rintro (⟨hx, _⟩ | rfl)
        · exact hx
        · exact hf
      · intro hx
        by_cases hxf : x.id = f.id
        · exact Or.inr (hid x hx hxf)
        · exact Or.inl ⟨hx, hxf⟩
    · intro hall
      exfalso
      simp only [List.all_eq_true, decide_eq_true_eq] at hall
      exact hall e he hei
  · have hall' : ∀ x ∈ s, ¬ x.id = f.id := by
      simpa only [List.any_eq_true, decide_eq_true_eq, not_exists, not_and] using hp
    by_cases hl : s.length < 5
    · have h1 : handleSlotSelect s f = s ++ [f] := by
        unfold handleSlotSelect
        rw [if_neg hp, if_pos hl]
      have hany2 : (s ++ [f]).any (fun y => y.id = f.id) = true := by
        rw [List.any_eq_true]
        exact ⟨f, by simp, by simp⟩
      have h2 : handleSlotSelect (s ++ [f]) f = s := by
        unfold handleSlotSelect
        rw [if_pos hany2, List.filter_append]
        have hs : s.filter (fun y => y.id ≠ f.id) = s :=
          List.filter_eq_self.mpr (fun a ha => by simpa using hall' a ha)
        have hf1 : [f].filter (fun y => y.id ≠ f.id) = ([] : List SelectedSlot) := by simp
        rw [hs, hf1, List.append_nil]
      rw [h1, h2]
      exact ⟨fun x => Iff.rfl, fun _ => rfl⟩
    · have h1 : handleSlotSelect s f = s := by
        unfold handleSlotSelect
        rw [if_neg hp, if_neg hl]
      rw [h1, h1]
      exact ⟨fun x => Iff.rfl, fun _ => rfl⟩

/-- Witness for C6 at a concrete state: membership of `slotB` survives a
double toggle of `slotA` in `[slotA, slotB]`. -/
theorem toggle_twice_restores_selection_set_witness :
    slotB ∈ handleSlotSelect (handleSlotSelect [slotA, slotB] slotA) slotA
      ↔ slotB ∈ [slotA, slotB] :=
  (toggle_twice_restores_selection_set [slotA, slotB] slotA (by decide) (by decide)).1 slotB

/-- C10: the slot-selection toggle preserves pairwise distinctness of the
selected slots' synthetic ids — removal filters every entry carrying the id,
and an entry is appended only when its id is absent; and `formatSlot` derives
the synthetic id as start concatenated with end. -/
theorem toggle_preserves_id_nodup :
    (∀ (s : List SelectedSlot) (f : SelectedSlot),
        (s.map SelectedSlot.id).Nodup → ((handleSlotSelect s f).map SelectedSlot.id).Nodup)
    ∧ (∀ (fmtLabel : String → String → String) (slot : TimeSlot),
        (formatSlot fmtLabel slot).id = slot.start ++ "-" ++ slot.end_) := by
  refine ⟨?_, fun _ _ => rfl⟩
  intro s f hnd
  unfold handleSlotSelect
  split
  · exact hnd.sublist ((List.filter_sublist s).map SelectedSlot.id)
  · split
    next hp hl =>
      have hfid : f.id ∉ s.map SelectedSlot.id := by
        simp only [List.any_eq_true, decide_eq_true_eq, not_exists, not_and] at hp
        simp only [List.mem_map, not_exists, not_and]
        intro x hx hxe
        exact hp x hx hxe
      have := List.Nodup.concat hfid hnd
      simpa [List.concat_eq_append] using this
    next _ _ => exact hnd

/-- Witness for C10 at a concrete state with distinct ids. -/
theorem toggle_preserves_id_nodup_witness :
    ((handleSlotSelect [slotA] slotB).map SelectedSlot.id).Nodup :=
  toggle_preserves_id_nodup.1 [slotA] slotB (by decide)

/-! ## Form-validation proofs (C4, C9) -/

/-- The regex body after the optional `+` accepts exactly a digit 1-9
followed by 1 to 14 digits. -/
theorem phoneCore_eq_true_iff (cs : List Char) :
    phoneCore cs = true ↔
      ∃ first rest, cs = first :: rest ∧ '1' ≤ first ∧ first ≤ '9'
        ∧ (∀ d ∈ rest, '0' ≤ d ∧ d ≤ '9') ∧ 1 ≤ rest.length ∧ rest.length ≤ 14 := by
  cases cs with
  | nil => simp [phoneCore]
  | cons c rest =>
      simp only [phoneCore, Bool.and_eq_true, decide_eq_true_eq, List.all_eq_true]
      constructor
      · rintro ⟨⟨⟨⟨h1, h2⟩, h3⟩, h4⟩, h5⟩
        exact ⟨c, rest, rfl, h1, h2, h3, h4, h5⟩
      · rintro ⟨first, rest', heq, h1, h2, h3, h4, h5⟩
        injection heq with h6 h7
        subst h6; subst h7
        exact ⟨⟨⟨⟨h1, h2⟩, h3⟩, h4⟩, h5⟩

/-- `validatePhoneNumber` decides exactly the spec's international format. -/
theorem validatePhoneNumber_iff (number : String) :
    validatePhoneNumber number = true ↔ specPhoneFormat number := by
  unfold validatePhoneNumber specPhoneFormat
  split
  next rest heq =>
    rw [phoneCore_eq_true_iff]
    constructor
    · rintro ⟨first, rest', hr, h1, h2, h3, h4, h5⟩
      exact ⟨first, rest', Or.inl (by rw [heq, hr]), h1, h2, h3, h4, h5⟩
    · rintro ⟨first, rest', (hcs | hcs), h1, h2, h3, h4, h5⟩
      · rw [heq] at hcs
        injection hcs with _ h7
        exact ⟨first, rest', h7, h1, h2, h3, h4, h5⟩
      · rw [heq] at hcs
        injection hcs with h6 _
        subst h6
        exact absurd h1 (by decide)
  next cs hne =>
    rw [phoneCore_eq_true_iff]
    constructor
    · rintro ⟨first, rest', hr, h1, h2, h3, h4, h5⟩
      exact ⟨first, rest', Or.inr hr, h1, h2, h3, h4, h5⟩
    · rintro ⟨first, rest', (hcs | hcs), h1, h2, h3, h4, h5⟩
      · exact (hne _ hcs).elim
      · exact ⟨first, rest', hcs, h1, h2, h3, h4, h5⟩

/-- C4 fails as stated: `"123"` is listed as an input that must fail, but it
matches `/^\+?[1-9]\d{1,14}$/` (a first digit `1` followed by two more
digits), so validation passes it and records no phone error. -/
theorem phone_123_accepted_cex :
    validatePhoneNumber "123" = true
    ∧ (validateForm ⟨"123", "Jane", [slotA]⟩).phoneNumber = none := by
  decide

/-- C4 amended: validation passes exactly the strings matching the
international format — optional leading `+`, first digit 1-9, then 1 to 14
further digits — and every failing non-empty input records the
phone-specific message; `"abc"` and `"+0123"` fail, but `"123"` (3 digits,
within 2-15) passes. -/
theorem validatePhoneNumber_matches_format :
    (∀ number : String, validatePhoneNumber number = true ↔ specPhoneFormat number)
    ∧ validatePhoneNumber "+11234567890" = true
    ∧ validatePhoneNumber "123" = true
    ∧ validatePhoneNumber "abc" = false
    ∧ validatePhoneNumber "+0123" = false
    ∧ (∀ f : FormState, f.phoneNumber ≠ "" → validatePhoneNumber f.phoneNumber = false →
        (validateForm f).phoneNumber = some "Enter a valid phone number (e.g., +11234567890)") := by
  refine ⟨validatePhoneNumber_iff, by decide, by decide, by decide, by decide, ?_⟩
  intro f h1 h2
  simp [validateForm, h1, h2]

/-- Witness for C4 at the concrete failing input `"abc"`. -/
theorem validatePhoneNumber_matches_format_witness :
    (validateForm ⟨"abc", "Jane", [slotA]⟩).phoneNumber
      = some "Enter a valid phone number (e.g., +11234567890)" :=
  validatePhoneNumber_matches_format.2.2.2.2.2 ⟨"abc", "Jane", [slotA]⟩
    (by decide) (by decide)

/-- C9 fails as stated: a whitespace-only invitee name is a non-empty
JavaScript string, hence truthy, so `validateForm` records no invitee-name
error and submission proceeds — no trimming is performed. -/
theorem whitespace_name_accepted_cex :
    (validateForm ⟨"+11234567890", " ", [slotA]⟩).inviteeName = none
    ∧ formIsValid ⟨"+11234567890", " ", [slotA]⟩ = true := by
  decide

/-- C9 amended: the invitee-name error is recorded exactly when the name is
the empty string; whitespace-only names pass validation and do not block
submission. -/
theorem inviteeName_error_iff_empty :
    ∀ f : FormState,
      ((validateForm f).inviteeName.isSome ↔ f.inviteeName = "")
      ∧ (f.inviteeName = "" → formIsValid f = false) := by
  intro f
  constructor
  · simp only [validateForm]
    split
    next h => simp [h]
    next h => simp [h]
  · intro h
    simp [formIsValid, validateForm, h]

/-- Witness for C9: the empty name does block submission. -/
theorem inviteeName_error_iff_empty_witness :
    formIsValid ⟨"+11234567890", "", [slotA]⟩ = false :=
  (inviteeName_error_iff_empty ⟨"+11234567890", "", [slotA]⟩).2 rfl

/-! ## Transcript-normalization proof (C3) -/

/-- C3: the guard `if (!transcript || typeof transcript !== 'string')` sends
every directly-passed structured array to `[]`, so of the three required
shapes only the string ones are normalized: the newline-delimited plain-text
block (shown here on the spec's own example) works, while a structured
sequence of role/text records — whatever its entries and whatever the JSON
parser — always normalizes to the empty sequence, making the array branch of
the code dead for direct arrays. -/
theorem transcript_array_shape_dropped :
    (∀ (jsonParse : String → Option TranscriptInput) (entries : List RawEntry),
        formatTranscript jsonParse (.arr entries) = [])
    ∧ formatTranscript (fun _ => none) (.str "Agent: Hello\nUser: Hi there")
        = [⟨"agent", "Hello"⟩, ⟨"user", "Hi there"⟩] := by
  constructor
  · intro jsonParse entries
    rfl
  · rfl

/-! ## Synchronizer proofs (C1, C2, C7, C8) -/

/-- C7: a poll-derived update replaces the snapshot wholesale — every field
reads from the fetched data, so fields present only in the previous snapshot
are dropped — whereas a push-derived update merges shallowly: fields present
in the update win and fields absent from it keep their previous value. -/
theorem poll_replaces_push_merges :
    ∀ (st : SyncState) (callId : String) (data upd : Obj) (k : String),
      ((processFetch st (.ok data)).callData k = data k)
      ∧ ((upd k).isSome = true →
          (handleMcpUpdate callId st ⟨callId, .details upd⟩).callData k = upd k)
      ∧ (upd k = none →
          (handleMcpUpdate callId st ⟨callId, .details upd⟩).callData k = st.callData k) := by
  intro st callId data upd k
  refine ⟨rfl, ?_, ?_⟩
  · intro h
    unfold handleMcpUpdate
    simp only [if_pos rfl]
    cases hu : upd k with
    | none => rw [hu] at h; simp at h
    | some v => simp [spread, hu]
  · intro h
    unfold handleMcpUpdate
    simp only [if_pos rfl]
    simp [spread, h]

/-- Witness for C7: a push update carrying only `status` preserves the
previous `extracted_info` field, while overriding `status`. -/
theorem poll_replaces_push_merges_witness :
    ((handleMcpUpdate "c" pollState0 ⟨"c", .details completedObj⟩).callData "status"
        = completedObj "status")
    ∧ ((handleMcpUpdate "c" pollState0 ⟨"c", .details completedObj⟩).callData "extracted_info"
        = pollState0.callData "extracted_info") :=
  ⟨(poll_replaces_push_merges pollState0 "c" completedObj completedObj "status").2.1 rfl,
   (poll_replaces_push_merges pollState0 "c" completedObj completedObj "extracted_info").2.2 rfl⟩

/-- C1 fails as stated: in push mode the MCP listener is registered for the
whole lifetime of the effect and `handleMcpUpdate` performs no terminal-status
check, so after the snapshot has reached `completed` a further subscription
callback still mutates it (here back to `in_progress`). -/
theorem push_callback_mutates_after_terminal_cex :
    isTerminal terminalPushState.callData = true
    ∧ (pushEventStep "call-1" terminalPushState
        ⟨"call-1", .details inProgressObj⟩).callData "status" = some "in_progress"
    ∧ terminalPushState.callData "status" = some "completed" :=
  ⟨rfl, rfl, rfl⟩

/-- C1 amended: in poll mode, the instant a fetched snapshot's status is
`completed` or `error` the interval is cleared and every later tick leaves
the state untouched; in push mode, however, the acquisition mechanism is not
stopped — while the listener is registered (and nothing but unmount
unregisters it), every matching callback still merges into the snapshot,
terminal or not. -/
theorem terminal_freezes_poll_but_not_push :
    (∀ (st : SyncState) (data : Obj) (r : FetchResult),
        isTerminal data = true →
        (processFetch st (.ok data)).intervalActive = false
        ∧ pollTick (processFetch st (.ok data)) r = processFetch st (.ok data))
    ∧ (∀ (callId : String) (st : SyncState) (upd : Obj),
        st.listenerRegistered = true →
        (pushEventStep callId st ⟨callId, .details upd⟩).callData = spread st.callData upd
        ∧ (pushEventStep callId st ⟨callId, .details upd⟩).listenerRegistered = true) := by
  constructor
  · intro st data r ht
    have h1 : (processFetch st (.ok data)).intervalActive = false := by
      simp [processFetch, ht]
    exact ⟨h1, by simp [pollTick, h1]⟩
  · intro callId st upd hreg
    simp [pushEventStep, handleMcpUpdate, hreg]

/-- Witness for C1 at concrete inputs: a fetched `completed` snapshot stops
the poll timer and freezes the state against a further tick, and a concrete
registered push state still merges. -/
theorem terminal_freezes_poll_but_not_push_witness :
    ((processFetch pollState0 (.ok completedObj)).intervalActive = false
      ∧ pollTick (processFetch pollState0 (.ok completedObj)) .fail
          = processFetch pollState0 (.ok completedObj))
    ∧ (pushEventStep "call-1" terminalPushState
          ⟨"call-1", .details inProgressObj⟩).callData
        = spread terminalPushState.callData inProgressObj :=
  ⟨terminal_freezes_poll_but_not_push.1 pollState0 completedObj .fail rfl,
   (terminal_freezes_poll_but_not_push.2 "call-1" terminalPushState inProgressObj rfl).1⟩

/-- C2 fails as stated: when MCP is available but `registerCallListener` is
missing, the effect performs the one fallback fetch and signals non-push
operation, but registers no interval — with the fetched status not terminal,
the state has no active timer and a later tick changes nothing, so fetching
does not continue every 3 seconds until a terminal status. -/
theorem mcp_no_listener_does_not_poll_cex :
    isTerminal queuedObj = false
    ∧ (setupEffect envAvailNoListener "call-1" emptyObj (.ok queuedObj)
        (.details emptyObj)).intervalActive = false
    ∧ pollTick (setupEffect envAvailNoListener "call-1" emptyObj (.ok queuedObj)
        (.details emptyObj)) (.ok inProgressObj)
      = setupEffect envAvailNoListener "call-1" emptyObj (.ok queuedObj) (.details emptyObj) :=
  ⟨rfl, rfl, rfl⟩

/-- C2 amended: when the adapter reports availability without the
subscription primitive, the hook signals non-push operation distinctly
(`usingMcp` is set `false`) and performs exactly one immediate fetch — the
snapshot becomes the fetched data — but schedules no interval, so no further
fetch fires; the fetch-every-3-seconds loop (`pollIntervalMs = 3000`,
starting with an immediate fetch) runs only in the branch where the adapter
reports unavailability. -/
theorem mcp_without_listener_single_fetch :
    (∀ (env : McpEnv) (callId : String) (init data : Obj) (p : McpOutcome),
        env.available = true → env.hasRegisterListener = false →
        (setupEffect env callId init (.ok data) p).usingMcp = false
        ∧ (setupEffect env callId init (.ok data) p).callData = data
        ∧ (setupEffect env callId init (.ok data) p).intervalActive = false
        ∧ (∀ r2, pollTick (setupEffect env callId init (.ok data) p) r2
            = setupEffect env callId init (.ok data) p))
    ∧ (∀ (env : McpEnv) (callId : String) (init data : Obj) (p : McpOutcome),
        env.available = false → isTerminal data = false →
        (setupEffect env callId init (.ok data) p).intervalActive = true
        ∧ (setupEffect env callId init (.ok data) p).callData = data)
    ∧ pollIntervalMs = 3000 := by
  refine ⟨?_, ?_, rfl⟩
  · intro env callId init data p hav hreg
    have hset : setupEffect env callId init (.ok data) p
        = processFetch ⟨init, false, none, false, false, false⟩ (.ok data) := by
      simp [setupEffect, checkMcpAvailability, hav, hreg]
    have hia : (setupEffect env callId init (.ok data) p).intervalActive = false := by
      rw [hset]
      simp [processFetch]
    refine ⟨by rw [hset]; rfl, by rw [hset]; rfl, hia, ?_⟩
    intro r2
    simp [pollTick, hia]
  · intro env callId init data p hav ht
    have hset : setupEffect env callId init (.ok data) p
        = processFetch ⟨init, false, none, false, true, false⟩ (.ok data) := by
      simp [setupEffect, checkMcpAvailability, hav]
    exact ⟨by rw [hset]; simp [processFetch, ht], by rw [hset]; rfl⟩

/-- Witness for C2 at the concrete environment with MCP but no listener
primitive, and at the concrete MCP-free environment. -/
theorem mcp_without_listener_single_fetch_witness :
    ((setupEffect envAvailNoListener "call-1" emptyObj (.ok queuedObj)
        (.details emptyObj)).usingMcp = false
      ∧ (setupEffect envAvailNoListener "call-1" emptyObj (.ok queuedObj)
          (.details emptyObj)).callData = queuedObj
      ∧ (setupEffect envAvailNoListener "call-1" emptyObj (.ok queuedObj)
          (.details emptyObj)).intervalActive = false
      ∧ pollTick (setupEffect envAvailNoListener "call-1" emptyObj (.ok queuedObj)
          (.details emptyObj)) .fail
        = setupEffect envAvailNoListener "call-1" emptyObj (.ok queuedObj) (.details emptyObj))
    ∧ (setupEffect envNoMcp "call-1" emptyObj (.ok queuedObj)
        (.details emptyObj)).intervalActive = true :=
  ⟨⟨(mcp_without_listener_single_fetch.1 envAvailNoListener "call-1" emptyObj queuedObj
      (.details emptyObj) rfl rfl).1,
    (mcp_without_listener_single_fetch.1 envAvailNoListener "call-1" emptyObj queuedObj
      (.details emptyObj) rfl rfl).2.1,
    (mcp_without_listener_single_fetch.1 envAvailNoListener "call-1" emptyObj queuedObj
      (.details emptyObj) rfl rfl).2.2.1,
    (mcp_without_listener_single_fetch.1 envAvailNoListener "call-1" emptyObj queuedObj
      (.details emptyObj) rfl rfl).2.2.2 .fail⟩,
   (mcp_without_listener_single_fetch.2.1 envNoMcp "call-1" emptyObj queuedObj
      (.details emptyObj) rfl rfl).1⟩

/-- C8: a transport failure during poll mode records the observable error
message, leaves the snapshot and the running interval untouched — so the next
scheduled fetch still fires and still applies its data — and the only fetch
outcome that ever deactivates the interval is a successfully fetched snapshot
with terminal status. -/
theorem poll_failure_recoverable :
    ∀ (st : SyncState) (r : FetchResult),
      st.intervalActive = true →
      ((pollTick st .fail).error = some "Unable to fetch call status"
        ∧ (pollTick st .fail).intervalActive = true
        ∧ (pollTick st .fail).callData = st.callData)
      ∧ (∀ data, (pollTick (pollTick st .fail) (.ok data)).callData = data)
      ∧ ((pollTick st r).intervalActive = false →
          ∃ data, r = .ok data ∧ isTerminal data = true) := by
  intro st r hia
  have hfail : pollTick st .fail
      = { st with error := some "Unable to fetch call status", loading := false } := by
    simp [pollTick, hia, processFetch]
  refine ⟨by rw [hfail]; exact ⟨rfl, hia, rfl⟩, ?_, ?_⟩
  · intro data
    rw [hfail]
    simp [pollTick, hia, processFetch]
  · intro hstop
    cases r with
    | fail => rw [hfail] at hstop; exact absurd hstop (by simp [hia])
    | ok data =>
        refine ⟨data, rfl, ?_⟩
        by_contra hnt
        rw [pollTick, if_pos hia] at hstop
        simp only [processFetch] at hstop
        rw [Bool.not_eq_true] at hnt
        rw [hnt] at hstop
        simp [hia] at hstop

/-- Witness for C8 at a concrete polling state: the failure is recorded, the
interval survives, and the next tick's data replaces the snapshot. -/
theorem poll_failure_recoverable_witness :
    (pollTick pollState0 .fail).error = some "Unable to fetch call status"
    ∧ (pollTick pollState0 .fail).intervalActive = true
    ∧ (pollTick (pollTick pollState0 .fail) (.ok completedObj)).callData = completedObj :=
  ⟨(poll_failure_recoverable pollState0 .fail rfl).1.1,
   (poll_failure_recoverable pollState0 .fail rfl).1.2.1,
   (poll_failure_recoverable pollState0 .fail rfl).2.1 completedObj⟩

end ScheduleSurf
